import Mathlib

/-!
Shallow embedding of the stock-dashboard core (data service, database
manager, indicator service, watchlist service) and proofs about it.

Python strings handled character-wise are modelled as `List Char`;
prices as `Rat`; timestamps and wall-clock times as `Nat` (minutes);
SQL NULL / Python None / pandas NaN as `Option` / an explicit `nan`
constructor.  External collaborators (yfinance, the `ta` library) are
oracles passed in as function parameters.
-/

namespace StocksDashboard

/-! ### Period parsing (DataService._fetch_from_yahoo, lines 69-86)

Models the start-date computation: the number of days subtracted from
`datetime.now()` to obtain the fetch start date.  `none` models the
`ValueError` raised by `int(...)` on a non-numeric prefix, which the
surrounding `try/except` turns into a `None` result for the whole fetch.
`int(...)` is modelled for non-negative digit strings, the only shape
the application's period strings take. -/

def parseNatL (s : List Char) : Option Nat :=
  if s.isEmpty then none
  else if s.all (fun c => c.isDigit) then
    some (s.foldl (fun acc c => 10 * acc + (c.toNat - 48)) 0)
  else none

def endsWithL (s suffx : List Char) : Bool :=
  decide (suffx <:+ s)

def startDateDaysAgo (period : List Char) : Option Nat :=
  if period = ['1', 'w', 'k'] then some 7
  else if period = ['m', 'a', 'x'] then some (365 * 10)
  else if endsWithL period ['d'] then parseNatL period.dropLast
  else if endsWithL period ['m', 'o'] then
    (parseNatL period.dropLast.dropLast).map (fun n => n * 30)
  else if endsWithL period ['y'] then
    (parseNatL period.dropLast).map (fun n => n * 365)
  else some 1

/-! ### Data model (database/models.py and the stock_data table schema) -/

/-- One row of the (datetime, open, high, low, close, volume) column set:
a bar as it appears both in a fetched price frame and in the result of
`get_stock_data`. -/
structure Bar where
  dt : Nat
  open_ : Rat
  high : Rat
  low : Rat
  close : Rat
  volume : Int
  deriving DecidableEq, Repr

/-- models.StockData: the record handed to `save_stock_data`. -/
structure StockData where
  ticker : String
  dt : Nat
  open_ : Rat
  high : Rat
  low : Rat
  close : Rat
  volume : Int
  period : String
  interval : String
  deriving DecidableEq, Repr

/-- A persisted row of the `stock_data` table: the record plus the
`created_at` column (DEFAULT CURRENT_TIMESTAMP at insert time). -/
structure StockRow where
  data : StockData
  createdAt : Nat
  deriving DecidableEq, Repr

/-- The natural key of the `stock_data` table:
UNIQUE(ticker, datetime, period, interval). -/
def stockKey (d : StockData) : String × Nat × String × String :=
  (d.ticker, d.dt, d.period, d.interval)

/-- A pandas DataFrame of bars: its column labels plus its rows. -/
structure PriceFrame where
  cols : List String
  rows : List Bar
  deriving DecidableEq, Repr

def fetchCols : List String :=
  ["Datetime", "Open", "High", "Low", "Close", "Volume"]

def storeCols : List String :=
  ["datetime", "open", "high", "low", "close", "volume"]

/-! ### Persistent store: stock_data operations (database_manager.py) -/

/-- One `INSERT OR REPLACE` into `stock_data`: SQLite deletes any row
with the same natural key, then inserts the new row. -/
def upsertStockOne (rows : List StockRow) (d : StockData) (now : Nat) :
    List StockRow :=
  rows.filter (fun r => decide (stockKey r.data ≠ stockKey d)) ++ [⟨d, now⟩]

/-- DatabaseManager.save_stock_data: upsert each record of the batch in
order, inside one transaction. -/
def save_stock_data (rows : List StockRow) (batch : List StockData)
    (now : Nat) : List StockRow :=
  batch.foldl (fun rs d => upsertStockOne rs d now) rows

/-- Rows whose natural key is `k`. -/
def filterKey (rows : List StockRow) (k : String × Nat × String × String) :
    List StockRow :=
  rows.filter (fun r => decide (stockKey r.data = k))

/-- The data columns (everything except `created_at`) of the rows with
natural key `k`. -/
def dataFilterKey (rows : List StockRow)
    (k : String × Nat × String × String) : List StockData :=
  (filterKey rows k).map (fun r => r.data)

/-- The last record of the batch carrying key `k` — the one whose values
survive after replay, by replace semantics. -/
def lastKeyed (batch : List StockData) (k : String × Nat × String × String) :
    Option StockData :=
  (batch.filter (fun d => decide (stockKey d = k))).getLast?


def CACHE_DURATION_MINUTES : Nat := 5

def INTERVAL_MAPPING : List (String × String) :=
  [("1d", "1m"), ("5d", "5m"), ("1mo", "1h"), ("3mo", "1d"),
   ("6mo", "1d"), ("1y", "1wk"), ("5y", "1mo"), ("max", "1mo")]

/-- `INTERVAL_MAPPING.get(period, '1d')`. -/
def intervalFor (period : String) : String :=
  match INTERVAL_MAPPING.find? (fun p => p.1 == period) with
  | some p => p.2
  | none => "1d"

/-! ### Store queries (database_manager.py) -/

def tripleMatch (r : StockRow) (ticker period interval : String) : Bool :=
  decide (r.data.ticker = ticker ∧ r.data.period = period ∧
    r.data.interval = interval)

/-- DatabaseManager.is_data_cached: a row for the triple written within
the TTL window exists.  `fault = true` models the `except` branch, which
reports `False`.  Times are in minutes. -/
def is_data_cached (fault : Bool) (rows : List StockRow)
    (ticker period interval : String) (now : Nat) : Bool :=
  if fault then false
  else rows.any (fun r => tripleMatch r ticker period interval &&
    decide (now - CACHE_DURATION_MINUTES < r.createdAt))

def barOf (d : StockData) : Bar :=
  ⟨d.dt, d.open_, d.high, d.low, d.close, d.volume⟩

def dtDesc (a b : StockRow) : Prop := b.data.dt ≤ a.data.dt

def barDtAsc (a b : Bar) : Prop := a.dt ≤ b.dt

instance : DecidableRel dtDesc := fun x y => Nat.decLe y.data.dt x.data.dt

instance : DecidableRel barDtAsc := fun x y => Nat.decLe x.dt y.dt

instance : IsTotal Bar barDtAsc :=
  ⟨fun a b => Nat.le_total a.dt b.dt⟩

instance : IsTrans Bar barDtAsc :=
  ⟨fun _ _ _ hab hbc => Nat.le_trans hab hbc⟩

/-- DatabaseManager.get_stock_data: select the six data columns of the
rows matching the triple, `ORDER BY datetime DESC`, apply the optional
`LIMIT`, then re-sort ascending by datetime (`sort_values`).  The
`except` branch (`fault = true`) returns the bare `pd.DataFrame()`,
which has no columns at all; the normal path always carries the selected
column labels, even with zero rows. -/
def get_stock_data (fault : Bool) (rows : List StockRow)
    (ticker period interval : String) (limit : Option Nat) : PriceFrame :=
  if fault then ⟨[], []⟩
  else
    let sel := rows.filter (fun r => tripleMatch r ticker period interval)
    let desc := List.insertionSort dtDesc sel
    let lim := match limit with
      | some n => desc.take n
      | none => desc
    ⟨storeCols, List.insertionSort barDtAsc (lim.map (fun r => barOf r.data))⟩

/-! ### Cache coordinator (services/data_service.py) -/

/-- The external `yf.download` boundary: (ticker, days-back, interval)
to the processed rows — already flattened, timezone-converted and
index-reset by `_flatten_columns` / `_process_data` — or `None` on a
provider failure. -/
def YahooOracle : Type := String → Nat → String → Option (List Bar)

/-- DataService._fetch_from_yahoo: derive the start date from the
period, download, and return `None` for an empty result; otherwise the
processed frame with the capitalized column labels. -/
def fetch_from_yahoo (yahoo : YahooOracle) (ticker period interval : String) :
    Option PriceFrame :=
  match startDateDaysAgo period.data with
  | none => none
  | some days =>
    match yahoo ticker days interval with
    | none => none
    | some bars =>
      if bars.isEmpty then none else some ⟨fetchCols, bars⟩

/-- `_save_to_cache`: convert each frame row to a models.StockData
record and hand the batch to `save_stock_data`. -/
def toStockData (ticker period interval : String) (b : Bar) : StockData :=
  ⟨ticker, b.dt, b.open_, b.high, b.low, b.close, b.volume, period, interval⟩

structure FetchOutcome where
  result : Option PriceFrame
  stock : List StockRow
  gatewayCalls : Nat
  deriving DecidableEq, Repr

/-- DataService.fetch_stock_data: resolve the interval via the mapping,
serve the cached frame when it is fresh and non-empty, otherwise fetch
from the gateway and write through.  `gatewayCalls` counts `yf.download`
invocations. -/
def fetch_stock_data (yahoo : YahooOracle) (cacheFault getFault : Bool)
    (rows : List StockRow) (ticker period : String) (ivl : Option String)
    (useCache : Bool) (now : Nat) : FetchOutcome :=
  let interval := ivl.getD (intervalFor period)
  let fresh : FetchOutcome :=
    match fetch_from_yahoo yahoo ticker period interval with
    | none => ⟨none, rows, 1⟩
    | some f =>
      ⟨some f,
       save_stock_data rows (f.rows.map (toStockData ticker period interval))
         now, 1⟩
  if useCache && is_data_cached cacheFault rows ticker period interval now then
    let cached := get_stock_data getFault rows ticker period interval none
    if !cached.rows.isEmpty then ⟨some cached, rows, 0⟩
    else fresh
  else fresh

/-! ### Sorting facts used to trace `get_stock_data` on a freshly
written store -/

/-! ### Indicator engine (services/technical_indicators_service.py)

A pandas DataFrame with arbitrary columns is modelled column-major: an
ordered association list from column label to cell list.  A cell is
either a number or NaN. -/

inductive PVal where
  | num (q : Rat)
  | nan
  deriving DecidableEq, Repr

abbrev IndFrame := List (String × List PVal)

def getColumn (f : IndFrame) (c : String) : Option (List PVal) :=
  (f.find? (fun p => p.1 == c)).map (fun p => p.2)

/-- `data[c] = v`: pandas replaces the column in place when the label
exists and appends it at the end otherwise. -/
def setColumn (f : IndFrame) (c : String) (v : List PVal) : IndFrame :=
  if f.any (fun p => p.1 == c) then
    f.map (fun p => if p.1 == c then (c, v) else p)
  else f ++ [(c, v)]

/-- `data.empty`: a DataFrame is empty when it has no rows. -/
def frameEmpty (f : IndFrame) : Bool :=
  f.all (fun p => p.2.isEmpty)

/-- The external `ta` library boundary: each call either returns a
computed column (whose cells may be NaN where history is insufficient)
or raises, modelled as `none`. -/
structure TaOracle where
  sma : Nat → List PVal → Option (List PVal)
  ema : Nat → List PVal → Option (List PVal)
  rsi : Nat → List PVal → Option (List PVal)
  macd : List PVal → Option (List PVal)
  macdSignal : List PVal → Option (List PVal)
  bbUpper : List PVal → Option (List PVal)
  bbMiddle : List PVal → Option (List PVal)
  bbLower : List PVal → Option (List PVal)

/-- One iteration of the `for indicator in indicators` loop.  `.ok` is
the frame after the branch ran; `.error` carries the frame as mutated so
far when a lookup or a `ta` call raises — Python mutates `data` in
place, so columns assigned before the raise stay. -/
def calcStep (ta : TaOracle) (f : IndFrame) (ind : String) :
    Except IndFrame IndFrame :=
  match ind with
  | "SMA_20" =>
    match getColumn f "Close" with
    | none => .error f
    | some cl =>
      match ta.sma 20 cl with
      | none => .error f
      | some col => .ok (setColumn f "SMA_20" col)
  | "EMA_20" =>
    match getColumn f "Close" with
    | none => .error f
    | some cl =>
      match ta.ema 20 cl with
      | none => .error f
      | some col => .ok (setColumn f "EMA_20" col)
  | "RSI_14" =>
    match getColumn f "Close" with
    | none => .error f
    | some cl =>
      match ta.rsi 14 cl with
      | none => .error f
      | some col => .ok (setColumn f "RSI_14" col)
  | "MACD" =>
    match getColumn f "Close" with
    | none => .error f
    | some cl =>
      match ta.macd cl with
      | none => .error f
      | some m =>
        let f1 := setColumn f "MACD" m
        match ta.macdSignal cl with
        | none => .error f1
        | some s => .ok (setColumn f1 "MACD_Signal" s)
  | "BB" =>
    match getColumn f "Close" with
    | none => .error f
    | some cl =>
      match ta.bbUpper cl with
      | none => .error f
      | some u =>
        let f1 := setColumn f "BB_Upper" u
        match ta.bbMiddle cl with
        | none => .error f1
        | some m =>
          let f2 := setColumn f1 "BB_Middle" m
          match ta.bbLower cl with
          | none => .error f2
          | some lo => .ok (setColumn f2 "BB_Lower" lo)
  | "SMA_50" =>
    match getColumn f "Close" with
    | none => .error f
    | some cl =>
      match ta.sma 50 cl with
      | none => .error f
      | some col => .ok (setColumn f "SMA_50" col)
  | "SMA_100" =>
    match getColumn f "Close" with
    | none => .error f
    | some cl =>
      match ta.sma 100 cl with
      | none => .error f
      | some col => .ok (setColumn f "SMA_100" col)
  | "SMA_200" =>
    match getColumn f "Close" with
    | none => .error f
    | some cl =>
      match ta.sma 200 cl with
      | none => .error f
      | some col => .ok (setColumn f "SMA_200" col)
  | "RSI_21" =>
    match getColumn f "Close" with
    | none => .error f
    | some cl =>
      match ta.rsi 21 cl with
      | none => .error f
      | some col => .ok (setColumn f "RSI_21" col)
  | _ => .ok f

/-- The whole `for` loop under the surrounding `try`: a raise stops the
loop and the `except` handler returns the frame as mutated so far. -/
def calcLoop (ta : TaOracle) : List String → IndFrame → IndFrame
  | [], f => f
  | i :: rest, f =>
    match calcStep ta f i with
    | .error f1 => f1
    | .ok f1 => calcLoop ta rest f1

def defaultIndicators : List String :=
  ["SMA_20", "EMA_20", "RSI_14", "MACD", "BB"]

/-- TechnicalIndicatorsService.calculate_indicators (return value; the
`_save_indicators_to_cache` call it makes is modelled separately and
does not affect the returned frame). -/
def calculate_indicators (ta : TaOracle) (f : IndFrame)
    (indicators : Option (List String)) : IndFrame :=
  if frameEmpty f then f
  else calcLoop ta (indicators.getD defaultIndicators) f

/-- Folding `calcStep` with raise propagation: used to name the frame
reached after a prefix of the loop ran without raising. -/
def runSteps (ta : TaOracle) : List String → IndFrame → Except IndFrame IndFrame
  | [], f => .ok f
  | i :: rest, f =>
    match calcStep ta f i with
    | .error f1 => .error f1
    | .ok f1 => runSteps ta rest f1

/-! ### Persisting indicators (row construction and the
technical_indicators table) -/

/-- One row of the frame as `iterrows` yields it: the `Datetime` cell
plus the remaining cells by column label. -/
structure IndRow where
  dt : Nat
  cells : List (String × PVal)
  deriving DecidableEq, Repr

/-- `row.get(c)`: `None` when the column does not exist. -/
def rowGet (cells : List (String × PVal)) (c : String) : Option PVal :=
  (cells.find? (fun p => p.1 == c)).map (fun p => p.2)

/-- `pd.notna`: false on `None` and on NaN. -/
def notna : Option PVal → Bool
  | some (PVal.num _) => true
  | _ => false

/-- `float(v) if pd.notna(v) else None`. -/
def floatIfNotna (v : Option PVal) : Option Rat :=
  if notna v then
    match v with
    | some (PVal.num q) => some q
    | _ => none
  else none

/-- models.TechnicalIndicators: the record
`_save_indicators_to_cache` builds for one frame row. -/
structure TIRecord where
  ticker : String
  dt : Nat
  sma_20 : Option Rat
  sma_50 : Option Rat
  sma_100 : Option Rat
  sma_200 : Option Rat
  ema_20 : Option Rat
  rsi_14 : Option Rat
  macd : Option Rat
  macd_signal : Option Rat
  bb_upper : Option Rat
  bb_middle : Option Rat
  bb_lower : Option Rat
  deriving DecidableEq, Repr

/-- The per-row body of `_save_indicators_to_cache`. -/
def build_indicator_record (ticker : String) (r : IndRow) : TIRecord :=
  { ticker := ticker
    dt := r.dt
    sma_20 := floatIfNotna (rowGet r.cells "SMA_20")
    sma_50 := floatIfNotna (rowGet r.cells "SMA_50")
    sma_100 := floatIfNotna (rowGet r.cells "SMA_100")
    sma_200 := floatIfNotna (rowGet r.cells "SMA_200")
    ema_20 := floatIfNotna (rowGet r.cells "EMA_20")
    rsi_14 := floatIfNotna (rowGet r.cells "RSI_14")
    macd := floatIfNotna (rowGet r.cells "MACD")
    macd_signal := floatIfNotna (rowGet r.cells "MACD_Signal")
    bb_upper := floatIfNotna (rowGet r.cells "BB_Upper")
    bb_middle := floatIfNotna (rowGet r.cells "BB_Middle")
    bb_lower := floatIfNotna (rowGet r.cells "BB_Lower") }

/-- A stored row of the `technical_indicators` table (migrations add
`sma_50`, `sma_100`, `sma_200` as nullable REAL columns). -/
structure TIStoredRow where
  ticker : String
  dt : Nat
  sma_20 : Option Rat
  sma_50 : Option Rat
  sma_100 : Option Rat
  sma_200 : Option Rat
  ema_20 : Option Rat
  rsi_14 : Option Rat
  macd : Option Rat
  macd_signal : Option Rat
  bb_upper : Option Rat
  bb_middle : Option Rat
  bb_lower : Option Rat
  createdAt : Nat
  deriving DecidableEq, Repr

/-- The row written by the `INSERT OR REPLACE` in
`save_technical_indicators`: its column list is
(ticker, datetime, sma_20, ema_20, rsi_14, macd, macd_signal, bb_upper,
bb_middle, bb_lower), so every column not listed — sma_50, sma_100,
sma_200 — takes its SQLite default, NULL. -/
def tiInsertRow (r : TIRecord) (now : Nat) : TIStoredRow :=
  { ticker := r.ticker
    dt := r.dt
    sma_20 := r.sma_20
    sma_50 := none
    sma_100 := none
    sma_200 := none
    ema_20 := r.ema_20
    rsi_14 := r.rsi_14
    macd := r.macd
    macd_signal := r.macd_signal
    bb_upper := r.bb_upper
    bb_middle := r.bb_middle
    bb_lower := r.bb_lower
    createdAt := now }

/-- `INSERT OR REPLACE` on UNIQUE(ticker, datetime). -/
def upsertTIOne (rows : List TIStoredRow) (r : TIRecord) (now : Nat) :
    List TIStoredRow :=
  rows.filter (fun x => decide ((x.ticker, x.dt) ≠ (r.ticker, r.dt))) ++
    [tiInsertRow r now]

/-- DatabaseManager.save_technical_indicators. -/
def save_technical_indicators (rows : List TIStoredRow)
    (batch : List TIRecord) (now : Nat) : List TIStoredRow :=
  batch.foldl (fun rs r => upsertTIOne rs r now) rows

/-- The column list of the SELECT in
DatabaseManager.get_technical_indicators. -/
def tiSelectCols : List String :=
  ["datetime", "sma_20", "ema_20", "rsi_14", "macd", "macd_signal",
   "bb_upper", "bb_middle", "bb_lower"]

/-! ### Watchlist (database_manager.py and services/watchlist_service.py) -/

/-- A row of the `watchlist_tickers` table (ticker is UNIQUE). -/
structure WRow where
  ticker : String
  company_name : String
  sector : Option String
  added_date : Nat
  notes : Option String
  target_price : Option Rat
  stop_loss : Option Rat
  is_active : Bool
  priority : Int
  createdAt : Nat
  updatedAt : Nat
  deriving DecidableEq, Repr

/-- `ORDER BY priority ASC, added_date DESC`. -/
def wlOrder (a b : WRow) : Prop :=
  a.priority < b.priority ∨ (a.priority = b.priority ∧ b.added_date ≤ a.added_date)

instance : DecidableRel wlOrder := fun a b => by
  unfold wlOrder
  infer_instance

/-- DatabaseManager.get_watchlist_tickers. -/
def get_watchlist_tickers (rows : List WRow) (activeOnly : Bool) : List WRow :=
  let base := if activeOnly then rows.filter (fun r => r.is_active) else rows
  List.insertionSort wlOrder base

/-- WatchlistService.get_most_recent_ticker: the first row of the
active listing. -/
def get_most_recent_ticker (rows : List WRow) : Option String :=
  match get_watchlist_tickers rows true with
  | [] => none
  | r :: _ => some r.ticker

/-- DatabaseManager.is_ticker_in_watchlist: only active rows count. -/
def is_ticker_in_watchlist (rows : List WRow) (t : String) : Bool :=
  rows.any (fun r => r.ticker == t && r.is_active)

/-- DatabaseManager.add_watchlist_ticker: a plain INSERT; a row with
the same ticker — active or not — violates UNIQUE(ticker), the raised
IntegrityError is caught, and the operation reports failure. -/
def add_watchlist_ticker (rows : List WRow) (w : WRow) : Bool × List WRow :=
  if rows.any (fun r => r.ticker == w.ticker) then (false, rows)
  else (true, rows ++ [w])

/-- What WatchlistService.validate_ticker extracted from the gateway
metadata lookup. -/
structure ValidationInfo where
  valid : Bool
  company_name : String
  sector : String
  deriving DecidableEq, Repr

/-- WatchlistService.add_ticker_to_watchlist: validate, reject an
active duplicate, build the row with the given priority, insert. -/
def add_ticker_to_watchlist (vr : ValidationInfo) (rows : List WRow)
    (ticker : String) (notes : Option String)
    (target_price stop_loss : Option Rat) (priority : Int) (now : Nat) :
    Bool × List WRow :=
  if !vr.valid then (false, rows)
  else if is_ticker_in_watchlist rows ticker then (false, rows)
  else add_watchlist_ticker rows
    { ticker := ticker
      company_name := vr.company_name
      sector := some vr.sector
      added_date := now
      notes := notes
      target_price := target_price
      stop_loss := stop_loss
      is_active := true
      priority := priority
      createdAt := now
      updatedAt := now }

/-- DatabaseManager.remove_watchlist_ticker:
`UPDATE ... SET is_active = 0, updated_at = CURRENT_TIMESTAMP WHERE
ticker = ?`; reports `cursor.rowcount > 0`, i.e. whether any row —
active or not — matched the ticker. -/
def remove_watchlist_ticker (rows : List WRow) (t : String) (now : Nat) :
    Bool × List WRow :=
  (rows.any (fun r => r.ticker == t),
   rows.map (fun r =>
     if r.ticker == t then
       { r with is_active := false, updatedAt := now }
     else r))

/-- WatchlistService.remove_ticker_from_watchlist: relays the store's
success flag. -/
def remove_ticker_from_watchlist (rows : List WRow) (t : String)
    (now : Nat) : Bool × List WRow :=
  remove_watchlist_ticker rows t now

/-- The keyword arguments of update_watchlist_ticker: `some` marks a
field present in `kwargs` (only the whitelisted names survive the
filter). -/
structure WUpdate where
  notes : Option (Option String)
  target_price : Option (Option Rat)
  stop_loss : Option (Option Rat)
  priority : Option Int
  is_active : Option Bool
  updated_at : Option Nat

def wHasFields (u : WUpdate) : Bool :=
  u.notes.isSome || u.target_price.isSome || u.stop_loss.isSome ||
    u.priority.isSome || u.is_active.isSome || u.updated_at.isSome

def applyWUpdate (u : WUpdate) (r : WRow) : WRow :=
  { r with
    notes := u.notes.getD r.notes
    target_price := u.target_price.getD r.target_price
    stop_loss := u.stop_loss.getD r.stop_loss
    priority := u.priority.getD r.priority
    is_active := u.is_active.getD r.is_active
    updatedAt := u.updated_at.getD r.updatedAt }

/-- DatabaseManager.update_watchlist_ticker: no recognized field means
no UPDATE is issued and the call reports failure; otherwise every row
matching the ticker gets the listed fields set. -/
def update_watchlist_ticker (rows : List WRow) (t : String) (u : WUpdate) :
    Bool × List WRow :=
  if !wHasFields u then (false, rows)
  else
    (rows.any (fun r => r.ticker == t),
     rows.map (fun r => if r.ticker == t then applyWUpdate u r else r))

/-- WatchlistService.update_watchlist_ticker adds
`updated_at = datetime.now()` to the kwargs before delegating. -/
def service_update_watchlist_ticker (rows : List WRow) (t : String)
    (u : WUpdate) (now : Nat) : Bool × List WRow :=
  update_watchlist_ticker rows t { u with updated_at := some now }

/-! ### Concrete instances used by counterexamples and witnesses -/

def exBar : Bar := ⟨21, 1, 2, 1, 2, 100⟩

def exYahoo : YahooOracle := fun t _ _ =>
  if t == "AAPL" then some [exBar] else none

/-- A stale bar for the same (ticker, period, interval) key: an earlier
timestamp, written long before the TTL window. -/
def exStaleData : StockData := ⟨"AAPL", 7, 3, 3, 3, 3, 50, "1d", "1m"⟩

def exStaleRow : StockRow := ⟨exStaleData, 3⟩

def exCall1 : FetchOutcome :=
  fetch_stock_data exYahoo false false [exStaleRow] "AAPL" "1d" none true 10

def exCall2 : FetchOutcome :=
  fetch_stock_data exYahoo false false exCall1.stock "AAPL" "1d" none true 11

def exStockData : StockData := ⟨"AAPL", 21, 1, 2, 1, 2, 100, "1d", "1m"⟩

def exFreshRow : StockRow := ⟨exStockData, 10⟩

def taOk : TaOracle :=
  ⟨fun _ c => some c, fun _ c => some c, fun _ c => some c,
   fun c => some c, fun c => some c, fun c => some c, fun c => some c,
   fun c => some c⟩

def taFailSMA20 : TaOracle :=
  { taOk with sma := fun n c => if n == 20 then none else some c }

def exIndFrame : IndFrame := [("Close", [PVal.num 1])]

def exIndRow : IndRow :=
  ⟨7, [("SMA_20", PVal.num 3), ("SMA_50", PVal.nan), ("MACD", PVal.num 5)]⟩

def exTIRecord : TIRecord :=
  { ticker := "AAPL", dt := 1, sma_20 := some 1, sma_50 := some 2,
    sma_100 := some 3, sma_200 := some 4, ema_20 := some 5,
    rsi_14 := some 6, macd := some 7, macd_signal := some 8,
    bb_upper := some 9, bb_middle := some 10, bb_lower := some 11 }

def exValidation : ValidationInfo := ⟨true, "Apple Inc.", "Technology"⟩

def wrowA : WRow := ⟨"AAA", "Alpha", some "Tech", 1, none, none, none, true, 1, 1, 1⟩

def wrowB : WRow := ⟨"BBB", "Beta", some "Tech", 2, none, none, none, true, 2, 2, 2⟩

def exWatchlist : List WRow := [wrowA, wrowB]

def exInactiveRow : WRow :=
  ⟨"AAPL", "Apple Inc.", some "Technology", 3, none, none, none, false, 3, 3, 3⟩

/-! ### Theorems -/


theorem orderedInsert_append {α : Type} {r : α → α → Prop} [DecidableRel r]
    (a : α) :
    ∀ l : List α, (∀ b ∈ l, ¬ r a b) → List.orderedInsert r a l = l ++ [a] := by
  intro l
  induction l with
  | nil => intro _; rfl
  | cons b t ih =>
    intro h
    rw [List.orderedInsert, if_neg (h b (List.mem_cons_self b t))]
    rw [ih (fun c hc => h c (List.mem_cons_of_mem b hc))]
    rfl

/-- Insertion sort reverses a list on which the sort relation never
holds along the list order. -/
theorem insertionSort_eq_reverse {α : Type} {r : α → α → Prop}
    [DecidableRel r] :
    ∀ l : List α, l.Pairwise (fun a b => ¬ r a b) →
      List.insertionSort r l = l.reverse := by
  intro l
  induction l with
  | nil => intro _; rfl
  | cons a t ih =>
    intro h
    rw [List.pairwise_cons] at h
    rw [List.insertionSort, ih h.2, orderedInsert_append]
    · simp
    · intro b hb
      exact h.1 b (List.mem_reverse.mp hb)

/-! ### Tracing a batch write through the triple filter -/

theorem filter_triple_upsert (rows : List StockRow) (b : Bar)
    (t p i : String) (now : Nat)
    (hdt : ∀ r ∈ rows.filter (fun r => tripleMatch r t p i),
      r.data.dt ≠ b.dt) :
    (upsertStockOne rows (toStockData t p i b) now).filter
        (fun r => tripleMatch r t p i) =
      rows.filter (fun r => tripleMatch r t p i) ++
        [⟨toStockData t p i b, now⟩] := by
  unfold upsertStockOne
  rw [List.filter_append]
  have hnew : List.filter (fun r => tripleMatch r t p i)
      [(⟨toStockData t p i b, now⟩ : StockRow)] =
      [⟨toStockData t p i b, now⟩] := by
    simp [tripleMatch, toStockData]
  rw [hnew, List.filter_filter]
  congr 1
  apply List.filter_congr
  intro a ha
  by_cases hm : tripleMatch a t p i
  · have hne : ¬ stockKey a.data = stockKey (toStockData t p i b) := by
      intro hk
      have hdtm : a.data.dt = b.dt := congrArg (fun q => q.2.1) hk
      exact hdt a (List.mem_filter.mpr ⟨ha, hm⟩) hdtm
    simp [hm, hne]
  · simp [hm]

theorem filter_triple_save (t p i : String) (now : Nat) :
    ∀ (bars : List Bar) (rows : List StockRow),
      (bars.map Bar.dt).Pairwise (· ≠ ·) →
      (∀ r ∈ rows.filter (fun r => tripleMatch r t p i),
        r.data.dt ∉ bars.map Bar.dt) →
      (save_stock_data rows (bars.map (toStockData t p i)) now).filter
          (fun r => tripleMatch r t p i) =
        rows.filter (fun r => tripleMatch r t p i) ++
          bars.map (fun b => ⟨toStockData t p i b, now⟩) := by
  intro bars
  induction bars with
  | nil => intro rows _ _; simp [save_stock_data]
  | cons b bs ih =>
    intro rows hpw hdt
    have hstep := filter_triple_upsert rows b t p i now
      (fun r hr => by
        intro hd
        exact hdt r hr (by rw [List.map_cons]; exact hd ▸ List.mem_cons_self _ _))
    have hmap : (b :: bs).map (toStockData t p i) =
        toStockData t p i b :: bs.map (toStockData t p i) := rfl
    rw [hmap]
    have hsave : save_stock_data rows
        (toStockData t p i b :: bs.map (toStockData t p i)) now =
        save_stock_data (upsertStockOne rows (toStockData t p i b) now)
          (bs.map (toStockData t p i)) now := rfl
    rw [hsave]
    rw [List.map_cons, List.pairwise_cons] at hpw
    rw [ih (upsertStockOne rows (toStockData t p i b) now) hpw.2
      (by
        intro r hr
        rw [hstep] at hr
        rcases List.mem_append.mp hr with h1 | h2
        · intro hmem
          exact hdt r h1 (by rw [List.map_cons]; exact List.mem_cons_of_mem _ hmem)
        · have : r = ⟨toStockData t p i b, now⟩ := List.mem_singleton.mp h2
          subst this
          intro hmem
          exact hpw.1 b.dt hmem rfl)]
    rw [hstep, List.map_cons, List.append_assoc]
    rfl

/-- Reading back the triple just written: on a store that held no rows
for the triple, after writing a batch with strictly increasing
timestamps, `get_stock_data` returns exactly the written bars, ascending,
under the store's lowercase column labels. -/
theorem get_after_save (rows : List StockRow) (bars : List Bar)
    (t p i : String) (now : Nat)
    (hempty : rows.filter (fun r => tripleMatch r t p i) = [])
    (hasc : bars.Pairwise (fun a b => a.dt < b.dt)) :
    get_stock_data false
        (save_stock_data rows (bars.map (toStockData t p i)) now) t p i none =
      ⟨storeCols, bars⟩ := by
  have hpw : (bars.map Bar.dt).Pairwise (· ≠ ·) := by
    rw [List.pairwise_map]
    exact hasc.imp (fun h => Nat.ne_of_lt h)
  have hfil := filter_triple_save t p i now bars rows hpw
    (by rw [hempty]; intro r hr; cases hr)
  rw [hempty] at hfil
  unfold get_stock_data
  rw [if_neg (by simp)]
  simp only [hfil, List.nil_append]
  have hdesc : List.insertionSort dtDesc
      (bars.map (fun b => (⟨toStockData t p i b, now⟩ : StockRow))) =
      (bars.map (fun b => (⟨toStockData t p i b, now⟩ : StockRow))).reverse := by
    apply insertionSort_eq_reverse
    rw [List.pairwise_map]
    apply hasc.imp
    intro a b h
    unfold dtDesc
    simp only [toStockData]
    omega
  rw [hdesc]
  have hmap : ((bars.map
      (fun b => (⟨toStockData t p i b, now⟩ : StockRow))).reverse).map
      (fun r => barOf r.data) = bars.reverse := by
    have hcomp : ((fun r => barOf r.data) ∘
        fun b => (⟨toStockData t p i b, now⟩ : StockRow)) =
        fun b : Bar => b := funext fun b => rfl
    rw [List.map_reverse, List.map_map, hcomp, List.map_id']
  have hasc2 : List.insertionSort barDtAsc bars.reverse = bars := by
    rw [insertionSort_eq_reverse bars.reverse
      (by
        rw [List.pairwise_reverse]
        apply hasc.imp
        intro a b h
        unfold barDtAsc
        omega)]
    exact List.reverse_reverse bars
  simp only [hmap, hasc2]


theorem filterKey_upsertOne (rows : List StockRow) (d : StockData)
    (now : Nat) (k : String × Nat × String × String) :
    filterKey (upsertStockOne rows d now) k =
      if stockKey d = k then [⟨d, now⟩] else filterKey rows k := by
  unfold filterKey upsertStockOne
  rw [List.filter_append]
  by_cases h : stockKey d = k
  · rw [if_pos h]
    have h2 : List.filter (fun r => decide (stockKey r.data = k))
        (List.filter (fun r => decide (stockKey r.data ≠ stockKey d)) rows)
        = [] := by
      rw [List.filter_filter]
      apply List.filter_eq_nil_iff.mpr
      intro a _
      simp only [Bool.and_eq_true, decide_eq_true_eq, ne_eq, not_and, not_not]
      intro hk
      exact hk.trans h.symm
    rw [h2]
    simp [h]
  · rw [if_neg h]
    have h2 : List.filter (fun r => decide (stockKey r.data = k))
        [(⟨d, now⟩ : StockRow)] = [] := by
      simp [h]
    rw [h2, List.append_nil, List.filter_filter]
    apply List.filter_congr
    intro a _
    by_cases hk : stockKey a.data = k
    · have hne : ¬ stockKey a.data = stockKey d := by
        intro hd
        exact h (hd ▸ hk)
      simp [hk, hne]
      intro he
      exact h he.symm
    · simp [hk]

theorem save_concat (rows : List StockRow) (batch : List StockData)
    (d : StockData) (now : Nat) :
    save_stock_data rows (batch ++ [d]) now =
      upsertStockOne (save_stock_data rows batch now) d now := by
  unfold save_stock_data
  rw [List.foldl_append]
  rfl

theorem lastKeyed_concat (batch : List StockData) (d : StockData)
    (k : String × Nat × String × String) :
    lastKeyed (batch ++ [d]) k =
      if stockKey d = k then some d else lastKeyed batch k := by
  unfold lastKeyed
  rw [List.filter_append]
  by_cases h : stockKey d = k
  · simp [h, List.getLast?_concat]
  · simp [h]

/-- Replay semantics of a batch upsert: per natural key, the store holds
the last batch record with that key, or its previous contents if the
batch never touches the key. -/
theorem dataFilterKey_save (rows : List StockRow) (batch : List StockData)
    (now : Nat) (k : String × Nat × String × String) :
    dataFilterKey (save_stock_data rows batch now) k =
      (match lastKeyed batch k with
       | some d => [d]
       | none => dataFilterKey rows k) := by
  induction batch using List.reverseRecOn with
  | nil => rfl
  | append_singleton batch d ih =>
    rw [save_concat, lastKeyed_concat]
    unfold dataFilterKey
    rw [filterKey_upsertOne]
    by_cases h : stockKey d = k
    · simp [h]
    · rw [if_neg h, if_neg h]
      exact ih

/-! ### Config (config/settings.py) -/

/-! ### Period-suffix helper facts -/

/-- A list ending in character `a` does not end in a different character `b`. -/
theorem endsWithL_single_ne {s : List Char} {a b : Char}
    (h : endsWithL s [a] = true) (hne : a ≠ b) : endsWithL s [b] = false := by
  by_contra hb
  rw [Bool.not_eq_false] at hb
  have ha := of_decide_eq_true h
  have hbb := of_decide_eq_true hb
  obtain ⟨t, rfl⟩ := ha
  obtain ⟨u, hu⟩ := hbb
  have : (u ++ [b]).getLast? = (t ++ [a]).getLast? := by rw [hu]
  simp [List.getLast?_concat] at this
  exact hne this.symm

/-- A list ending in `"mo"` ends in `'o'`. -/
theorem endsWithL_mo_last {s : List Char}
    (h : endsWithL s ['m', 'o'] = true) : endsWithL s ['o'] = true := by
  have ha := of_decide_eq_true h
  obtain ⟨t, rfl⟩ := ha
  apply decide_eq_true
  exact ⟨t ++ ['m'], by simp⟩

theorem ne_of_endsWith_d {s : List Char} (h : endsWithL s ['d'] = true) :
    s ≠ ['1', 'w', 'k'] ∧ s ≠ ['m', 'a', 'x'] := by
  constructor
  · intro he
    subst he
    exact absurd h (by decide)
  · intro he
    subst he
    exact absurd h (by decide)

theorem ne_of_endsWith_mo {s : List Char} (h : endsWithL s ['m', 'o'] = true) :
    s ≠ ['1', 'w', 'k'] ∧ s ≠ ['m', 'a', 'x'] := by
  constructor
  · intro he
    subst he
    exact absurd h (by decide)
  · intro he
    subst he
    exact absurd h (by decide)

theorem ne_of_endsWith_y {s : List Char} (h : endsWithL s ['y'] = true) :
    s ≠ ['1', 'w', 'k'] ∧ s ≠ ['m', 'a', 'x'] := by
  constructor
  · intro he
    subst he
    exact absurd h (by decide)
  · intro he
    subst he
    exact absurd h (by decide)

/-- C8: the fetch start date is derived from the period string by
calendar arithmetic — a period `"Nd"` subtracts N days, `"Nmo"`
subtracts 30·N days, `"Ny"` subtracts 365·N days, and `"max"` subtracts
10·365 days. -/
theorem c8_start_date_arithmetic (period : List Char) (N : Nat) :
    (endsWithL period ['d'] = true → parseNatL period.dropLast = some N →
      startDateDaysAgo period = some N) ∧
    (endsWithL period ['m', 'o'] = true →
      parseNatL period.dropLast.dropLast = some N →
      startDateDaysAgo period = some (30 * N)) ∧
    (endsWithL period ['y'] = true → parseNatL period.dropLast = some N →
      startDateDaysAgo period = some (365 * N)) ∧
    startDateDaysAgo ['m', 'a', 'x'] = some (10 * 365) := by
  refine ⟨?_, ?_, ?_, by decide⟩
  · intro hd hp
    obtain ⟨h1, h2⟩ := ne_of_endsWith_d hd
    rw [startDateDaysAgo, if_neg h1, if_neg h2, if_pos hd, hp]
  · intro hmo hp
    obtain ⟨h1, h2⟩ := ne_of_endsWith_mo hmo
    have ho := endsWithL_mo_last hmo
    have hd : endsWithL period ['d'] = false :=
      endsWithL_single_ne ho (by decide)
    rw [startDateDaysAgo, if_neg h1, if_neg h2,
      if_neg (by rw [hd]; exact Bool.false_ne_true), if_pos hmo, hp]
    rw [Option.map_some']
    rw [Nat.mul_comm]
  · intro hy hp
    obtain ⟨h1, h2⟩ := ne_of_endsWith_y hy
    have hd : endsWithL period ['d'] = false :=
      endsWithL_single_ne hy (by decide)
    have hmo : endsWithL period ['m', 'o'] = false := by
      by_contra hc
      rw [Bool.not_eq_false] at hc
      have ho := endsWithL_mo_last hc
      have := endsWithL_single_ne hy (show 'y' ≠ 'o' by decide)
      rw [this] at ho
      exact Bool.false_ne_true ho
    rw [startDateDaysAgo, if_neg h1, if_neg h2,
      if_neg (by rw [hd]; exact Bool.false_ne_true),
      if_neg (by rw [hmo]; exact Bool.false_ne_true), if_pos hy, hp]
    rw [Option.map_some']
    rw [Nat.mul_comm]

/-- C8 witness: the three suffix cases at concrete periods. -/
theorem c8_start_date_arithmetic_witness :
    startDateDaysAgo ['5', 'd'] = some 5 ∧
    startDateDaysAgo ['3', 'm', 'o'] = some 90 ∧
    startDateDaysAgo ['2', 'y'] = some 730 :=
  ⟨(c8_start_date_arithmetic ['5', 'd'] 5).1 (by decide) (by decide),
   (c8_start_date_arithmetic ['3', 'm', 'o'] 3).2.1 (by decide) (by decide),
   (c8_start_date_arithmetic ['2', 'y'] 2).2.2.1 (by decide) (by decide)⟩

/-- C6: `save_stock_data` is idempotent — replaying the same batch
leaves, for every natural key, the stored data values and the row count
unchanged, and a key the batch touches holds exactly one row (replace,
never duplicate). -/
theorem c6_upsert_idempotent (rows : List StockRow) (batch : List StockData)
    (t1 t2 : Nat) (k : String × Nat × String × String) :
    dataFilterKey (save_stock_data (save_stock_data rows batch t1) batch t2) k =
      dataFilterKey (save_stock_data rows batch t1) k ∧
    (filterKey (save_stock_data (save_stock_data rows batch t1) batch t2) k).length =
      (filterKey (save_stock_data rows batch t1) k).length ∧
    (batch.any (fun d => stockKey d == k) = true →
      (filterKey (save_stock_data rows batch t1) k).length = 1) := by
  have h1 := dataFilterKey_save rows batch t1 k
  have h2 := dataFilterKey_save (save_stock_data rows batch t1) batch t2 k
  have hdata : dataFilterKey (save_stock_data (save_stock_data rows batch t1)
      batch t2) k = dataFilterKey (save_stock_data rows batch t1) k := by
    rw [h1, h2]
    cases hlk : lastKeyed batch k with
    | none => rw [h1, hlk]
    | some d => rfl
  have hlen : ∀ l : List StockRow, ∀ kk, (filterKey l kk).length =
      (dataFilterKey l kk).length := by
    intro l kk
    unfold dataFilterKey
    rw [List.length_map]
  refine ⟨hdata, ?_, ?_⟩
  · rw [hlen, hlen, hdata]
  · intro hany
    obtain ⟨d, hd, hdk⟩ := List.any_eq_true.mp hany
    have hne : lastKeyed batch k ≠ none := by
      unfold lastKeyed
      rw [Ne, List.getLast?_eq_none_iff]
      intro hnil
      have : d ∈ List.filter (fun d => decide (stockKey d = k)) batch :=
        List.mem_filter.mpr ⟨hd, by
          rw [decide_eq_true_eq]
          exact beq_iff_eq.mp hdk⟩
      rw [hnil] at this
      cases this
    rw [hlen, h1]
    cases hlk : lastKeyed batch k with
    | none => exact absurd hlk hne
    | some d0 => rfl

/-- C6 witness: replaying a one-record batch leaves a single row for
its key. -/
theorem c6_upsert_idempotent_witness :
    (filterKey (save_stock_data [] [exStockData] 1) (stockKey exStockData)).length = 1 :=
  (c6_upsert_idempotent [] [exStockData] 1 2 (stockKey exStockData)).2.2 (by decide)

/-! ### Cache round-trip facts -/

theorem fetch_from_yahoo_some {y : YahooOracle} {t p i : String}
    {F : PriceFrame} (h : fetch_from_yahoo y t p i = some F) :
    F.cols = fetchCols ∧ F.rows ≠ [] := by
  unfold fetch_from_yahoo at h
  split at h
  · exact absurd h (by simp)
  · split at h
    · exact absurd h (by simp)
    · rename_i bars _
      split at h
      · exact absurd h (by simp)
      · rename_i hbe
        injection h with h2
        subst h2
        refine ⟨rfl, ?_⟩
        intro hnil
        apply hbe
        have : bars = [] := hnil
        rw [this]
        rfl

/-- On a store with no rows for the triple, the freshness check fails. -/
theorem is_data_cached_no_triple {rows : List StockRow} {t p i : String}
    (hempty : rows.filter (fun r => tripleMatch r t p i) = []) (now : Nat) :
    is_data_cached false rows t p i now = false := by
  unfold is_data_cached
  rw [if_neg (by simp)]
  by_contra hc
  rw [Bool.not_eq_false] at hc
  obtain ⟨r, hr, hm⟩ := List.any_eq_true.mp hc
  rw [Bool.and_eq_true] at hm
  have : r ∈ rows.filter (fun r => tripleMatch r t p i) :=
    List.mem_filter.mpr ⟨hr, hm.1⟩
  rw [hempty] at this
  cases this

/-- What `get_stock_data` serves, on any store: the selected lowercase
column labels. -/
theorem get_stock_data_cols (st : List StockRow) (t p i : String) :
    (get_stock_data false st t p i none).cols = storeCols := rfl

/-- The served frame has one row per stored row matching the triple —
no `created_at` filter thins them. -/
theorem get_stock_data_length (st : List StockRow) (t p i : String) :
    (get_stock_data false st t p i none).rows.length =
      (st.filter (fun r => tripleMatch r t p i)).length := by
  show (List.insertionSort barDtAsc
    ((List.insertionSort dtDesc
      (st.filter (fun r => tripleMatch r t p i))).map
        (fun r => barOf r.data))).length = _
  simp only [List.length_insertionSort, List.length_map]

/-- The served rows are exactly the bars of the stored rows matching
the triple, up to order. -/
theorem get_stock_data_perm (st : List StockRow) (t p i : String) :
    List.Perm (get_stock_data false st t p i none).rows
      ((st.filter (fun r => tripleMatch r t p i)).map (fun r => barOf r.data)) := by
  show List.Perm (List.insertionSort barDtAsc
    ((List.insertionSort dtDesc
      (st.filter (fun r => tripleMatch r t p i))).map
        (fun r => barOf r.data))) _
  refine (List.perm_insertionSort barDtAsc _).trans ?_
  exact List.Perm.map _ (List.perm_insertionSort dtDesc _)

/-- The served rows come out ascending by timestamp. -/
theorem get_stock_data_sorted (st : List StockRow) (t p i : String) :
    List.Sorted barDtAsc (get_stock_data false st t p i none).rows := by
  show List.Sorted barDtAsc (List.insertionSort barDtAsc
    ((List.insertionSort dtDesc
      (st.filter (fun r => tripleMatch r t p i))).map
        (fun r => barOf r.data)))
  exact List.sorted_insertionSort barDtAsc _

/-- C1 counterexample: on a store holding one stale row for the key
(written outside the TTL window), the first `use_cache` call
cache-misses, fetches one bar and returns it under the gateway's
capitalized column labels; the second call within the TTL window serves
the store with no gateway call, and its frame is not bit-identical to
the first call's in two ways — its column labels are the store's
lowercase ones, and it holds two rows (the stale bar mixed with the
fresh one, since the read applies no created_at filter) where the first
call returned one. -/
theorem c1_counterexample :
    exCall2.gatewayCalls = 0 ∧
    exCall2.result ≠ exCall1.result ∧
    Option.map PriceFrame.cols exCall1.result = some fetchCols ∧
    Option.map PriceFrame.cols exCall2.result = some storeCols ∧
    Option.map (fun f => f.rows.length) exCall1.result = some 1 ∧
    Option.map (fun f => f.rows.length) exCall2.result = some 2 ∧
    Option.map (fun f => f.rows.map Bar.dt) exCall1.result = some [21] ∧
    Option.map (fun f => f.rows.map Bar.dt) exCall2.result = some [7, 21] :=
  ⟨by decide, by decide, by decide, by decide, by decide, by decide,
   by decide, by decide⟩

/-- C1 amended: whenever the first `use_cache` call succeeds and the
second call finds the key still fresh (within the TTL window), the
second call issues no gateway fetch, leaves the store unchanged, and
returns exactly the series the store then holds for the key: every
stored row for (ticker, period, interval) — stale rows from earlier
writes included, since the read applies no created_at filter — as a
timestamp-ascending ordering of those bars, under the store's lowercase
column labels.  Bit-identity with the first call's series fails in
general: after a fresh fetch the labels differ, and stale same-key rows
change the values and the row count (the counterexample shows both). -/
theorem c1_cache_roundtrip (yahoo : YahooOracle) (rows : List StockRow)
    (ticker period : String) (ivl : Option String) (F : PriceFrame)
    (t1 t2 : Nat)
    (_succeeds : (fetch_stock_data yahoo false false rows ticker period ivl true t1).result
      = some F)
    (hfresh : is_data_cached false
      (fetch_stock_data yahoo false false rows ticker period ivl true t1).stock
      ticker period (ivl.getD (intervalFor period)) t2 = true) :
    (fetch_stock_data yahoo false false
        (fetch_stock_data yahoo false false rows ticker period ivl true t1).stock
        ticker period ivl true t2).gatewayCalls = 0 ∧
    (fetch_stock_data yahoo false false
        (fetch_stock_data yahoo false false rows ticker period ivl true t1).stock
        ticker period ivl true t2).stock =
      (fetch_stock_data yahoo false false rows ticker period ivl true t1).stock ∧
    (fetch_stock_data yahoo false false
        (fetch_stock_data yahoo false false rows ticker period ivl true t1).stock
        ticker period ivl true t2).result =
      some (get_stock_data false
        (fetch_stock_data yahoo false false rows ticker period ivl true t1).stock
        ticker period (ivl.getD (intervalFor period)) none) ∧
    (get_stock_data false
        (fetch_stock_data yahoo false false rows ticker period ivl true t1).stock
        ticker period (ivl.getD (intervalFor period)) none).cols = storeCols ∧
    List.Perm
      (get_stock_data false
        (fetch_stock_data yahoo false false rows ticker period ivl true t1).stock
        ticker period (ivl.getD (intervalFor period)) none).rows
      (((fetch_stock_data yahoo false false rows ticker period ivl true t1).stock.filter
          (fun r => tripleMatch r ticker period (ivl.getD (intervalFor period)))).map
        (fun r => barOf r.data)) ∧
    List.Sorted barDtAsc
      (get_stock_data false
        (fetch_stock_data yahoo false false rows ticker period ivl true t1).stock
        ticker period (ivl.getD (intervalFor period)) none).rows := by
  set st := (fetch_stock_data yahoo false false rows ticker period ivl true t1).stock
    with hst
  have hfilne : st.filter
      (fun r => tripleMatch r ticker period (ivl.getD (intervalFor period))) ≠ [] := by
    unfold is_data_cached at hfresh
    rw [if_neg (by simp)] at hfresh
    obtain ⟨r, hr, hm⟩ := List.any_eq_true.mp hfresh
    rw [Bool.and_eq_true] at hm
    intro hnil
    have hmem : r ∈ st.filter
        (fun r => tripleMatch r ticker period (ivl.getD (intervalFor period))) :=
      List.mem_filter.mpr ⟨hr, hm.1⟩
    rw [hnil] at hmem
    cases hmem
  have hne2 : (get_stock_data false st ticker period
      (ivl.getD (intervalFor period)) none).rows ≠ [] := by
    intro h0
    apply hfilne
    have hl := get_stock_data_length st ticker period (ivl.getD (intervalFor period))
    rw [h0] at hl
    exact List.length_eq_zero.mp hl.symm
  have hie : (get_stock_data false st ticker period
      (ivl.getD (intervalFor period)) none).rows.isEmpty = false := by
    cases hb : (get_stock_data false st ticker period
        (ivl.getD (intervalFor period)) none).rows.isEmpty with
    | false => rfl
    | true => exact absurd (List.isEmpty_iff.mp hb) hne2
  have hout2 : fetch_stock_data yahoo false false st ticker period ivl true t2 =
      ⟨some (get_stock_data false st ticker period
        (ivl.getD (intervalFor period)) none), st, 0⟩ := by
    simp only [fetch_stock_data, hfresh, Bool.and_true, if_true, hie,
      Bool.not_false, Bool.true_eq_false, Bool.false_eq_true, if_false]
  exact ⟨by rw [hout2], by rw [hout2], by rw [hout2],
    get_stock_data_cols st ticker period (ivl.getD (intervalFor period)),
    get_stock_data_perm st ticker period (ivl.getD (intervalFor period)),
    get_stock_data_sorted st ticker period (ivl.getD (intervalFor period))⟩

/-- C1 witness: the round-trip over a store that also holds a stale
row for the key. -/
theorem c1_cache_roundtrip_witness :
    (fetch_stock_data exYahoo false false
        (fetch_stock_data exYahoo false false [exStaleRow] "AAPL" "1d" none true 10).stock
        "AAPL" "1d" none true 11).gatewayCalls = 0 ∧
    (fetch_stock_data exYahoo false false
        (fetch_stock_data exYahoo false false [exStaleRow] "AAPL" "1d" none true 10).stock
        "AAPL" "1d" none true 11).result =
      some (get_stock_data false
        (fetch_stock_data exYahoo false false [exStaleRow] "AAPL" "1d" none true 10).stock
        "AAPL" "1d" "1m" none) :=
  have h := c1_cache_roundtrip exYahoo [exStaleRow] "AAPL" "1d" none
    ⟨fetchCols, [exBar]⟩ 10 11 (by decide) (by decide)
  ⟨h.1, h.2.2.1⟩

/-- C9: when the freshness check passes but the stored series for the
key comes back empty, the coordinator does not return the empty cached
frame — it behaves exactly as on a cache miss, issuing one gateway
fetch. -/
theorem c9_empty_cache_falls_through (yahoo : YahooOracle) (cf gf : Bool)
    (rows : List StockRow) (ticker period : String) (ivl : Option String)
    (now : Nat)
    (hfresh : is_data_cached cf rows ticker period
      (ivl.getD (intervalFor period)) now = true)
    (hempty : (get_stock_data gf rows ticker period
      (ivl.getD (intervalFor period)) none).rows = []) :
    fetch_stock_data yahoo cf gf rows ticker period ivl true now =
      fetch_stock_data yahoo cf gf rows ticker period ivl false now ∧
    (fetch_stock_data yahoo cf gf rows ticker period ivl true now).gatewayCalls
      = 1 := by
  have hie : (get_stock_data gf rows ticker period
      (ivl.getD (intervalFor period)) none).rows.isEmpty = true := by
    rw [hempty]
    rfl
  have hsame : fetch_stock_data yahoo cf gf rows ticker period ivl true now =
      fetch_stock_data yahoo cf gf rows ticker period ivl false now := by
    simp only [fetch_stock_data, hfresh, hie, Bool.and_true, Bool.not_true,
      Bool.false_eq_true, if_false, if_true, Bool.false_and]
  refine ⟨hsame, ?_⟩
  rw [hsame]
  simp only [fetch_stock_data, Bool.false_and, Bool.false_eq_true, if_false]
  cases hf : fetch_from_yahoo yahoo ticker period (ivl.getD (intervalFor period)) with
  | none => simp [hf]
  | some f => simp [hf]

/-- C9 witness: a faulting cached read on a fresh store falls through
to the gateway path. -/
theorem c9_empty_cache_falls_through_witness :
    fetch_stock_data exYahoo false true [exFreshRow] "AAPL" "1d" none true 11 =
      fetch_stock_data exYahoo false true [exFreshRow] "AAPL" "1d" none false 11 :=
  (c9_empty_cache_falls_through exYahoo false true [exFreshRow] "AAPL" "1d"
    none 11 (by decide) (by decide)).1

/-! ### Indicator loop facts -/

theorem calcLoop_append (ta : TaOracle) :
    ∀ (pre rest : List String) (f f1 : IndFrame),
      runSteps ta pre f = .ok f1 →
      calcLoop ta (pre ++ rest) f = calcLoop ta rest f1 := by
  intro pre
  induction pre with
  | nil =>
    intro rest f f1 h
    injection h with h2
    subst h2
    rfl
  | cons i pre ih =>
    intro rest f f1 h
    simp only [runSteps] at h
    simp only [List.cons_append, calcLoop]
    split at h
    · exact absurd h (by simp)
    · rename_i f2 hs
      exact ih rest f2 f1 h

/-- C2 counterexample: with a `ta` oracle whose SMA(20) call raises and
whose EMA(20) call succeeds, requesting `["SMA_20", "EMA_20"]` returns
the input frame untouched — the failing indicator yields no null column
and the other requested indicator is not computed either, because the
single `try` around the loop aborts everything. -/
theorem c2_counterexample :
    calculate_indicators taFailSMA20 exIndFrame (some ["SMA_20", "EMA_20"]) =
      exIndFrame ∧
    getColumn (calculate_indicators taFailSMA20 exIndFrame
      (some ["SMA_20", "EMA_20"])) "EMA_20" = none ∧
    getColumn (calculate_indicators taFailSMA20 exIndFrame
      (some ["SMA_20", "EMA_20"])) "SMA_20" = none :=
  ⟨by decide, by decide, by decide⟩

/-- C2 amended: indicators are not isolated from one another — the whole
request loop runs under one `try`, so when computing one indicator
raises, the columns assigned before the failure are kept, the failing
indicator adds no (null) column, every later requested indicator is
skipped, and the partially augmented frame is returned. -/
theorem c2_indicator_failure_aborts_loop (ta : TaOracle) (f f1 f2 : IndFrame)
    (pre post : List String) (bad : String)
    (hpre : runSteps ta pre f = .ok f1)
    (hbad : calcStep ta f1 bad = .error f2)
    (hne : frameEmpty f = false) :
    calculate_indicators ta f (some (pre ++ bad :: post)) = f2 := by
  unfold calculate_indicators
  rw [if_neg (by rw [hne]; exact Bool.false_ne_true)]
  rw [show (some (pre ++ bad :: post)).getD defaultIndicators =
    pre ++ bad :: post from rfl]
  rw [calcLoop_append ta pre (bad :: post) f f1 hpre]
  simp only [calcLoop]
  rw [hbad]

/-- C2 witness: the aborting run at the concrete oracle and frame. -/
theorem c2_indicator_failure_aborts_loop_witness :
    calculate_indicators taFailSMA20 exIndFrame
      (some ([] ++ "SMA_20" :: ["EMA_20"])) = exIndFrame :=
  c2_indicator_failure_aborts_loop taFailSMA20 exIndFrame exIndFrame exIndFrame
    [] ["EMA_20"] "SMA_20" rfl rfl rfl

/-! ### Null propagation into persisted indicator records -/

theorem floatIfNotna_none_iff (v : Option PVal) :
    floatIfNotna v = none ↔ notna v = false := by
  cases v with
  | none => simp [floatIfNotna, notna]
  | some pv => cases pv <;> simp [floatIfNotna, notna]

theorem floatIfNotna_num {v : Option PVal} {q : Rat}
    (h : v = some (PVal.num q)) : floatIfNotna v = some q := by
  subst h
  rfl

/-- C7: in the record built for persistence, an indicator field is None
exactly when the computed cell is not a number (NaN or column absent),
and a numeric cell is stored with its own value — never as 0.0. -/
theorem c7_nulls_persisted_as_null (ticker : String) (r : IndRow) :
    ((build_indicator_record ticker r).sma_20 = none ↔
      notna (rowGet r.cells "SMA_20") = false) ∧
    (∀ q : Rat, rowGet r.cells "SMA_20" = some (PVal.num q) →
      (build_indicator_record ticker r).sma_20 = some q) ∧
    ((build_indicator_record ticker r).sma_50 = none ↔
      notna (rowGet r.cells "SMA_50") = false) ∧
    (∀ q : Rat, rowGet r.cells "SMA_50" = some (PVal.num q) →
      (build_indicator_record ticker r).sma_50 = some q) ∧
    ((build_indicator_record ticker r).sma_100 = none ↔
      notna (rowGet r.cells "SMA_100") = false) ∧
    (∀ q : Rat, rowGet r.cells "SMA_100" = some (PVal.num q) →
      (build_indicator_record ticker r).sma_100 = some q) ∧
    ((build_indicator_record ticker r).sma_200 = none ↔
      notna (rowGet r.cells "SMA_200") = false) ∧
    (∀ q : Rat, rowGet r.cells "SMA_200" = some (PVal.num q) →
      (build_indicator_record ticker r).sma_200 = some q) ∧
    ((build_indicator_record ticker r).ema_20 = none ↔
      notna (rowGet r.cells "EMA_20") = false) ∧
    (∀ q : Rat, rowGet r.cells "EMA_20" = some (PVal.num q) →
      (build_indicator_record ticker r).ema_20 = some q) ∧
    ((build_indicator_record ticker r).rsi_14 = none ↔
      notna (rowGet r.cells "RSI_14") = false) ∧
    (∀ q : Rat, rowGet r.cells "RSI_14" = some (PVal.num q) →
      (build_indicator_record ticker r).rsi_14 = some q) ∧
    ((build_indicator_record ticker r).macd = none ↔
      notna (rowGet r.cells "MACD") = false) ∧
    (∀ q : Rat, rowGet r.cells "MACD" = some (PVal.num q) →
      (build_indicator_record ticker r).macd = some q) ∧
    ((build_indicator_record ticker r).macd_signal = none ↔
      notna (rowGet r.cells "MACD_Signal") = false) ∧
    (∀ q : Rat, rowGet r.cells "MACD_Signal" = some (PVal.num q) →
      (build_indicator_record ticker r).macd_signal = some q) ∧
    ((build_indicator_record ticker r).bb_upper = none ↔
      notna (rowGet r.cells "BB_Upper") = false) ∧
    (∀ q : Rat, rowGet r.cells "BB_Upper" = some (PVal.num q) →
      (build_indicator_record ticker r).bb_upper = some q) ∧
    ((build_indicator_record ticker r).bb_middle = none ↔
      notna (rowGet r.cells "BB_Middle") = false) ∧
    (∀ q : Rat, rowGet r.cells "BB_Middle" = some (PVal.num q) →
      (build_indicator_record ticker r).bb_middle = some q) ∧
    ((build_indicator_record ticker r).bb_lower = none ↔
      notna (rowGet r.cells "BB_Lower") = false) ∧
    (∀ q : Rat, rowGet r.cells "BB_Lower" = some (PVal.num q) →
      (build_indicator_record ticker r).bb_lower = some q) :=
  ⟨floatIfNotna_none_iff _, fun _ h => floatIfNotna_num h,
   floatIfNotna_none_iff _, fun _ h => floatIfNotna_num h,
   floatIfNotna_none_iff _, fun _ h => floatIfNotna_num h,
   floatIfNotna_none_iff _, fun _ h => floatIfNotna_num h,
   floatIfNotna_none_iff _, fun _ h => floatIfNotna_num h,
   floatIfNotna_none_iff _, fun _ h => floatIfNotna_num h,
   floatIfNotna_none_iff _, fun _ h => floatIfNotna_num h,
   floatIfNotna_none_iff _, fun _ h => floatIfNotna_num h,
   floatIfNotna_none_iff _, fun _ h => floatIfNotna_num h,
   floatIfNotna_none_iff _, fun _ h => floatIfNotna_num h,
   floatIfNotna_none_iff _, fun _ h => floatIfNotna_num h⟩

/-- C7 witness: a numeric SMA_20 cell round-trips, a NaN SMA_50 cell
and an absent RSI_14 column become None. -/
theorem c7_nulls_persisted_as_null_witness :
    (build_indicator_record "AAPL" exIndRow).sma_20 = some 3 ∧
    (build_indicator_record "AAPL" exIndRow).sma_50 = none ∧
    (build_indicator_record "AAPL" exIndRow).rsi_14 = none :=
  have h := c7_nulls_persisted_as_null "AAPL" exIndRow
  ⟨h.2.1 3 (by decide),
   (h.2.2.1).mpr (by decide),
   (h.2.2.2.2.2.2.2.2.2.2.1).mpr (by decide)⟩

/-- C3: the INSERT in save_technical_indicators lists only
(ticker, datetime, sma_20, ema_20, rsi_14, macd, macd_signal, bb_upper,
bb_middle, bb_lower), so a record carrying sma_50/sma_100/sma_200
values is stored with NULL in those columns — and the read-back SELECT
does not name them either: the claimed round-trip fails. -/
theorem c3_sma_columns_dropped :
    exTIRecord.sma_50 = some 2 ∧
    exTIRecord.sma_100 = some 3 ∧
    exTIRecord.sma_200 = some 4 ∧
    (save_technical_indicators [] [exTIRecord] 0).map (fun r => r.sma_50) =
      [none] ∧
    (save_technical_indicators [] [exTIRecord] 0).map (fun r => r.sma_100) =
      [none] ∧
    (save_technical_indicators [] [exTIRecord] 0).map (fun r => r.sma_200) =
      [none] ∧
    "sma_50" ∉ tiSelectCols ∧ "sma_100" ∉ tiSelectCols ∧
    "sma_200" ∉ tiSelectCols :=
  ⟨by decide, by decide, by decide, by decide, by decide, by decide,
   by decide, by decide, by decide⟩

/-! ### Watchlist claims -/

/-- C4 counterexample: `addTicker` with priority 7 succeeds and stores
priority 7, outside [1,5] — nothing clamps it. -/
theorem c4_counterexample :
    (add_ticker_to_watchlist exValidation [] "AAPL" none none none 7 5).1 =
      true ∧
    (add_ticker_to_watchlist exValidation [] "AAPL" none none none 7 5).2.map
      (fun r => r.priority) = [7] ∧
    ¬ ((7 : Int) ≤ 5) :=
  ⟨by decide, by decide, by decide⟩

/-- C4 amended: no clamping happens anywhere — the stored priority is
exactly the integer argument, on add and on update alike; it lies in
[1,5] only when the caller's argument does (the UI select box is what
restricts it in practice). -/
theorem c4_priority_stored_verbatim (vr : ValidationInfo) (rows : List WRow)
    (ticker : String) (notes : Option String) (tp sl : Option Rat)
    (p : Int) (now : Nat)
    (hv : vr.valid = true)
    (hdup : rows.any (fun r => r.ticker == ticker) = false) :
    (add_ticker_to_watchlist vr rows ticker notes tp sl p now).1 = true ∧
    (add_ticker_to_watchlist vr rows ticker notes tp sl p now).2 =
      rows ++ [⟨ticker, vr.company_name, some vr.sector, now, notes, tp, sl,
        true, p, now, now⟩] ∧
    (∀ r ∈ (service_update_watchlist_ticker rows ticker
        ⟨none, none, none, some p, none, none⟩ now).2,
      r.ticker = ticker → r.priority = p) := by
  have hact : is_ticker_in_watchlist rows ticker = false := by
    by_contra hc
    rw [Bool.not_eq_false] at hc
    obtain ⟨r, hr, hm⟩ := List.any_eq_true.mp hc
    rw [Bool.and_eq_true] at hm
    have : rows.any (fun r => r.ticker == ticker) = true :=
      List.any_eq_true.mpr ⟨r, hr, hm.1⟩
    rw [hdup] at this
    exact Bool.false_ne_true this
  refine ⟨?_, ?_, ?_⟩
  · simp only [add_ticker_to_watchlist, hv, Bool.not_true, Bool.false_eq_true,
      if_false, hact, add_watchlist_ticker, hdup]
  · simp only [add_ticker_to_watchlist, hv, Bool.not_true, Bool.false_eq_true,
      if_false, hact, add_watchlist_ticker, hdup]
  · intro r hr hrt
    have hu : (service_update_watchlist_ticker rows ticker
        ⟨none, none, none, some p, none, none⟩ now).2 =
        rows.map (fun x => if x.ticker == ticker then
          applyWUpdate ⟨none, none, none, some p, none, some now⟩ x else x) :=
      rfl
    rw [hu] at hr
    obtain ⟨x, hx, hxr⟩ := List.mem_map.mp hr
    by_cases ht : (x.ticker == ticker) = true
    · rw [if_pos ht] at hxr
      subst hxr
      rfl
    · rw [if_neg (by rw [Bool.not_eq_true] at ht; rw [ht]; exact Bool.false_ne_true)] at hxr
      subst hxr
      exact absurd (beq_iff_eq.mpr hrt) (by
        rw [Bool.not_eq_true] at ht
        rw [ht]
        exact Bool.false_ne_true)

/-- C4 witness: the verbatim-store theorem at priority 7. -/
theorem c4_priority_stored_verbatim_witness :
    (add_ticker_to_watchlist exValidation [] "AAPL" none none none 7 5).2 =
      [] ++ [⟨"AAPL", "Apple Inc.", some "Technology", 5, none, none, none,
        true, 7, 5, 5⟩] :=
  (c4_priority_stored_verbatim exValidation [] "AAPL" none none none 7 5
    rfl rfl).2.1

/-- C5: at a watchlist with two active rows where the most recently
added one carries the larger priority number, `get_most_recent_ticker`
returns the other row — the listing orders by priority first, so its
head is not the latest added_date. -/
theorem c5_most_recent_ticker_bug :
    get_most_recent_ticker exWatchlist = some "AAA" ∧
    wrowA.is_active = true ∧
    wrowB.is_active = true ∧
    wrowA.added_date < wrowB.added_date ∧
    wrowB.ticker = "BBB" ∧
    get_most_recent_ticker [] = none :=
  ⟨by decide, by decide, by decide, by decide, by decide, by decide⟩

/-- C10: the soft delete succeeds exactly when some row — active or not
— carries the ticker; every matching row is deactivated with its
updated_at refreshed, other rows are untouched, and the service relays
the store's flag. -/
theorem c10_remove_soft_delete (rows : List WRow) (t : String) (now : Nat) :
    ((remove_watchlist_ticker rows t now).1 = true ↔ ∃ r ∈ rows, r.ticker = t) ∧
    (∀ r ∈ (remove_watchlist_ticker rows t now).2, r.ticker = t →
      r.is_active = false ∧ r.updatedAt = now) ∧
    (∀ r ∈ (remove_watchlist_ticker rows t now).2, r.ticker ≠ t → r ∈ rows) ∧
    remove_ticker_from_watchlist rows t now = remove_watchlist_ticker rows t now := by
  refine ⟨?_, ?_, ?_, rfl⟩
  · show (rows.any fun r => r.ticker == t) = true ↔ _
    rw [List.any_eq_true]
    constructor
    · rintro ⟨r, hr, hm⟩
      exact ⟨r, hr, beq_iff_eq.mp hm⟩
    · rintro ⟨r, hr, he⟩
      exact ⟨r, hr, beq_iff_eq.mpr he⟩
  · intro r hr hrt
    obtain ⟨x, hx, hxr⟩ := List.mem_map.mp hr
    by_cases ht : (x.ticker == t) = true
    · rw [if_pos ht] at hxr
      subst hxr
      exact ⟨rfl, rfl⟩
    · rw [if_neg (by rw [Bool.not_eq_true] at ht; rw [ht]; exact Bool.false_ne_true)] at hxr
      subst hxr
      exact absurd (beq_iff_eq.mpr hrt) (by
        rw [Bool.not_eq_true] at ht
        rw [ht]
        exact Bool.false_ne_true)
  · intro r hr hrt
    obtain ⟨x, hx, hxr⟩ := List.mem_map.mp hr
    by_cases ht : (x.ticker == t) = true
    · rw [if_pos ht] at hxr
      subst hxr
      exact absurd (beq_iff_eq.mp ht) hrt
    · rw [if_neg (by rw [Bool.not_eq_true] at ht; rw [ht]; exact Bool.false_ne_true)] at hxr
      subst hxr
      exact hx

/-- C10 witness: removing an already-inactive ticker still succeeds. -/
theorem c10_remove_soft_delete_witness :
    (remove_watchlist_ticker [exInactiveRow] "AAPL" 9).1 = true :=
  (c10_remove_soft_delete [exInactiveRow] "AAPL" 9).1.mpr
    ⟨exInactiveRow, by decide, by decide⟩

end StocksDashboard
